import Mathlib

/-!
Shallow embedding of the epoch-based reclamation engine (thread registry,
pinning, epoch advancement, deferred freeing) from src/thread.rs.

Machine integers are modelled as Nat with explicit reduction modulo 2 ^ 64
where the code relies on wraparound.  Atomic operations are modelled as plain
state reads and writes of a sequentially executing call; the outcome of each
compare-and-swap that can lose a race to another thread is supplied by an
explicit schedule of booleans (true = the CAS succeeds).  The registry, a
lock-free singly linked list of thread entries, is modelled as a Lean list;
unlinking an entry from the list is removal from the list.
-/

/-- Width of a machine word: usize is 64 bits. -/
def USIZE : Nat := 2 ^ 64

/-- Number of pinnings after which a thread will collect some global garbage
(src/thread.rs, constant PINS_BEFORE_COLLECT). -/
def PINS_BEFORE_COLLECT : Nat := 128

/-- The disposer stored with a deferred object.  The only disposer the code in
src/thread.rs ever installs is the local function free in defer_free, which
releases the memory of the object without running any destructor logic. -/
inductive Disposer where
  | freeNoDrop
  deriving DecidableEq, Repr

/-- Modelled from the spec: the garbage Bag type lives in src/garbage.rs, which
is not among the sources; per the spec it is a bounded buffer of
(disposer, object) pairs.  Objects are modelled by their addresses (Nat). -/
structure Bag where
  items : List (Disposer × Nat)
  deriving DecidableEq, Repr

/-- Modelled from the spec: Bag.try_insert appends one (disposer, object) pair
to the bag and returns true, or returns false (leaving the bag unchanged) when
the bag is at capacity.  The capacity is a parameter cap. -/
def Bag.try_insert (cap : Nat) (b : Bag) (d : Disposer) (obj : Nat) : Bool × Bag :=
  if b.items.length < cap then (true, ⟨b.items ++ [(d, obj)]⟩) else (false, b)

/-- An entry in the linked list of participating threads (struct Thread).
state is the word whose least significant bit says whether the thread is
currently pinned and whose remaining bits encode the epoch at pinning time.
tag is the tag of the forward link next; tag 1 means the entry is logically
deleted and can be unlinked. -/
structure ThreadEntry where
  state : Nat
  tag : Nat
  deriving DecidableEq, Repr

/-- Modelled from the spec: garbage.collect (src/garbage.rs is not among the
sources) pops bags from the front of the global queue while their stamped
epoch is old enough relative to the current global epoch (at least one full
generation, i.e. two steps of the 2-step counter, behind), disposing their
contents; it stops at the first bag that is not yet old enough. -/
def collect (epoch : Nat) (queue : List (Nat × Bag)) : List (Nat × Bag) :=
  queue.dropWhile (fun sb => 4 ≤ (epoch + USIZE - sb.1 % USIZE) % USIZE)

/-- Modelled from the spec: garbage.push (src/garbage.rs is not among the
sources) stamps the bag with the epoch observed at the moment of the call and
appends it to the global garbage queue. -/
def push (bag : Bag) (epoch : Nat) (queue : List (Nat × Bag)) : List (Nat × Bag) :=
  queue ++ [(epoch, bag)]

/-- Thread.set_pinned: the new value of the state word of a thread being
pinned at the given global epoch is epoch OR 1 (the fence accompanying the
store has no effect on the sequential state). -/
def Thread.set_pinned (epoch : Nat) : Nat := epoch ||| 1

/-- Thread.set_unpinned: the state word is reset by storing the number zero. -/
def Thread.set_unpinned : Nat := 0

/-- Outcome of the registry scan performed by try_advance. -/
inductive ScanOutcome where
  | raceAbort
  | blocked
  | reachedEnd
  deriving DecidableEq, Repr

/-- Result of the registry scan of try_advance: the outcome, the registry as
it stands when the scan stops, the unlinked entries handed to defer_free, and
the live (untagged) entries whose state word the scan examined. -/
structure ScanResult where
  outcome : ScanOutcome
  registry : List ThreadEntry
  freed : List ThreadEntry
  scannedLive : List ThreadEntry
  deriving DecidableEq, Repr

/-- The traversal loop of try_advance (src/thread.rs lines 199-237).  epoch is
the global epoch loaded at the start of the call; cas supplies the outcome of
each unlink compare-and-swap on the predecessor link (an exhausted schedule
counts as a lost race).  For an entry whose forward link is tagged, a
successful unlink removes the entry, records it as handed to defer_free and
continues with the successor without changing the predecessor; a failed unlink
abandons the whole scan.  For a live entry pinned in an epoch different from
epoch, the scan stops (the global epoch cannot be advanced yet). -/
def scanLoop (epoch : Nat) : List ThreadEntry → List Bool → ScanResult
  | [], _ => ⟨.reachedEnd, [], [], []⟩
  | c :: rest, cas =>
    if c.tag = 1 then
      match cas with
      | [] => ⟨.raceAbort, c :: rest, [], []⟩
      | ok :: cas' =>
        if ok then
          let r := scanLoop epoch rest cas'
          ⟨r.outcome, r.registry, c :: r.freed, r.scannedLive⟩
        else ⟨.raceAbort, c :: rest, [], []⟩
    else
      if c.state &&& 1 = 1 ∧ c.state &&& (USIZE - 2) ≠ epoch then
        ⟨.blocked, c :: rest, [], [c]⟩
      else
        let r := scanLoop epoch rest cas
        ⟨r.outcome, c :: r.registry, r.freed, c :: r.scannedLive⟩

/-- Result of a whole try_advance call. -/
structure AdvanceResult where
  epoch : Nat
  registry : List ThreadEntry
  freed : List ThreadEntry
  scannedLive : List ThreadEntry
  outcome : ScanOutcome
  deriving DecidableEq, Repr

/-- try_advance (src/thread.rs lines 196-242): load the global epoch, scan the
registry, and only when the scan reaches the end of the list compare-and-swap
the global epoch from the observed value to that value incremented by 2 with
wraparound on overflow.  In the sequential model of one call the epoch is not
modified between the initial load and the final compare-and-swap, so that CAS
succeeds. -/
def try_advance (epoch : Nat) (reg : List ThreadEntry) (cas : List Bool) : AdvanceResult :=
  let r := scanLoop epoch reg cas
  let epoch' := if r.outcome = .reachedEnd then (epoch + 2) % USIZE else epoch
  ⟨epoch', r.registry, r.freed, r.scannedLive, r.outcome⟩

/-- Global shared state: the epoch counter EPOCH, the registry of participating
threads and the global garbage queue of (stamp, bag) pairs. -/
structure Global where
  epoch : Nat
  registry : List ThreadEntry
  queue : List (Nat × Bag)
  deriving DecidableEq, Repr

/-- Abstract step events, used to state ordering claims about compound
operations. -/
inductive Event where
  | setPinned
  | tryAdvance
  | collect
  | pushBag
  | setUnpinned
  | unregister
  | insertObj
  deriving DecidableEq, Repr

/-- The thread-local harness data (struct Harness): whether the thread is
currently pinned, the total number of pinnings performed, and the local bag.
The thread field (the registry entry) is modelled separately as the state word
tstate threaded through the operations. -/
structure Harness where
  isPinned : Bool
  pinCount : Nat
  bag : Bag
  deriving DecidableEq, Repr

/-- Outcome of the user closure passed to pin: normal return or termination by
failure (a panic unwinding out of the closure). -/
inductive FOutcome where
  | ok
  | panicked
  deriving DecidableEq, Repr

/-- Result of one call to pin: the propagated closure outcome, the harness and
thread state word after the call, the global state, whether the opportunistic
advance-and-collect was triggered, and the writes performed as events. -/
structure PinResult where
  result : FOutcome
  harness : Harness
  tstate : Nat
  global : Global
  triggered : Bool
  events : List Event
  deriving DecidableEq, Repr

/-- pin (src/thread.rs lines 334-369).  If the thread was already pinned the
call only runs the closure: nothing is written.  Otherwise the thread is
pinned (state word set to epoch OR 1), the pin counter is incremented with
wraparound, and when the previous counter value is a multiple of
PINS_BEFORE_COLLECT a try_advance and a collect pass are run.  The deferred
block unpins the thread on both the normal and the panicking exit path of the
closure; the closure outcome fres is then propagated.  Entries that
try_advance hands to defer_free are recorded in the scan result rather than
threaded through the local bag. -/
def pin (h : Harness) (tstate : Nat) (g : Global) (cas : List Bool) (fres : FOutcome) :
    PinResult :=
  if h.isPinned then
    { result := fres, harness := h, tstate := tstate, global := g,
      triggered := false, events := [] }
  else
    let tstate1 := Thread.set_pinned g.epoch
    let count := h.pinCount
    let h1 : Harness := { h with isPinned := true, pinCount := (count + 1) % USIZE }
    let trig : Bool := count % PINS_BEFORE_COLLECT == 0
    let advanced :=
      if trig then
        let r := try_advance g.epoch g.registry cas
        ({ epoch := r.epoch, registry := r.registry,
           queue := collect r.epoch g.queue : Global },
         [Event.tryAdvance, Event.collect])
      else (g, [])
    let _ := tstate1
    { result := fres
      harness := { h1 with isPinned := false }
      tstate := Thread.set_unpinned
      global := advanced.1
      triggered := trig
      events := [Event.setPinned] ++ advanced.2 ++ [Event.setUnpinned] }

/-- The fresh harness installed on first use (src/thread.rs lines 36-41):
not pinned, pin counter zero, an empty local bag. -/
def freshHarness : Harness := ⟨false, 0, ⟨[]⟩⟩

/-- Initial global state with epoch zero and no other threads present. -/
def initialGlobal : Global := ⟨0, [], []⟩

/-- A single thread pinning n times in a row (closure returns normally, no
other threads present): the list of triggered flags, one per pin, in order. -/
def pinMany : Nat → Harness → Nat → Global → List Bool
  | 0, _, _, _ => []
  | n + 1, h, t, g =>
    let r := pin h t g [] .ok
    r.triggered :: pinMany n r.harness r.tstate r.global

/-- Triggered flags of the first n pins of a fresh thread. -/
def simTriggers (n : Nat) : List Bool := pinMany n freshHarness 0 initialGlobal

/-- The weak compare-and-swap retry loop of Thread.unregister (src/thread.rs
lines 168-182) acting on the forward link of the own entry, a pair
(successor address, tag).  sched supplies the outcome of each weak CAS
attempt (false = spurious failure); reloading after a failure observes the
same link value in the sequential model.  An exhausted schedule leaves the
loop still spinning, returning the unchanged link. -/
def unregisterLoop (link : Nat × Nat) : List Bool → Nat × Nat
  | [] => link
  | ok :: rest =>
    if link.2 = 0 then
      if ok then (link.1, 1) else unregisterLoop link rest
    else link

/-- Thread.unregister lifted to the registry: the entry at index i has the tag
of its forward link driven by unregisterLoop; no entry is removed and no other
entry is touched. -/
def registryUnregister (reg : List ThreadEntry) (i : Nat) (sched : List Bool) :
    List ThreadEntry :=
  match reg.get? i with
  | none => reg
  | some e => reg.set i { e with tag := (unregisterLoop (0, e.tag) sched).2 }

/-- Result of the harness destructor: final state word of the own entry, the
global state, the own forward link, the sequence of state words the entry
goes through, and the steps as events in execution order. -/
structure DropResult where
  tstate : Nat
  global : Global
  link : Nat × Nat
  tstateTrace : List Nat
  events : List Event
  deriving DecidableEq, Repr

/-- Harness.drop (src/thread.rs lines 56-82): manually pin the thread, run
try_advance and a collect pass, push the local bag into the global garbage
queue, manually unpin the thread, and mark the entry as deleted via
unregister.  cas is the schedule for the unlink CASes inside try_advance and
sched the schedule for the weak CAS loop of unregister. -/
def harnessDrop (h : Harness) (link : Nat × Nat) (g : Global) (cas : List Bool)
    (sched : List Bool) : DropResult :=
  let t1 := Thread.set_pinned g.epoch
  let r := try_advance g.epoch g.registry cas
  let g1 : Global := { epoch := r.epoch, registry := r.registry, queue := g.queue }
  let g2 : Global := { g1 with queue := collect g1.epoch g1.queue }
  let g3 : Global := { g2 with queue := push h.bag g2.epoch g2.queue }
  let t2 := Thread.set_unpinned
  let link' := unregisterLoop link sched
  { tstate := t2, global := g3, link := link', tstateTrace := [t1, t2],
    events := [Event.setPinned] ++ [Event.tryAdvance] ++ [Event.collect] ++
      [Event.pushBag] ++ [Event.setUnpinned] ++ [Event.unregister] }

/-- State threaded through defer_free: the local bag of the calling thread,
the global state and the recorded events. -/
structure DeferState where
  bag : Bag
  global : Global
  events : List Event
  deriving DecidableEq, Repr

/-- The loop of defer_free (src/thread.rs lines 376-402), with fuel for
termination: try to insert the pair (freeNoDrop, obj) into the current bag;
when the bag is at capacity, replace it with a fresh empty bag, run
try_advance and a collect pass, push the old full bag into the global garbage
queue and retry the insertion. -/
def deferFreeLoop (cap : Nat) (obj : Nat) (cas : List Bool) :
    Nat → DeferState → Option DeferState
  | 0, _ => none
  | fuel + 1, st =>
    let ins := Bag.try_insert cap st.bag Disposer.freeNoDrop obj
    if ins.1 then
      some { st with bag := ins.2, events := st.events ++ [Event.insertObj] }
    else
      let r := try_advance st.global.epoch st.global.registry cas
      let q1 := collect r.epoch st.global.queue
      let q2 := push st.bag r.epoch q1
      deferFreeLoop cap obj cas fuel
        { bag := ⟨[]⟩
          global := { epoch := r.epoch, registry := r.registry, queue := q2 }
          events := st.events ++ [Event.tryAdvance, Event.collect, Event.pushBag] }


/-- The state defer_free reaches after flushing a full bag: a fresh empty
bag, the global state after a try_advance and a collect pass with the old
full bag pushed onto the queue, and the corresponding events recorded. -/
def deferFlushState (cas : List Bool) (st : DeferState) : DeferState :=
  let r := try_advance st.global.epoch st.global.registry cas
  { bag := ⟨[]⟩
    global := { epoch := r.epoch, registry := r.registry,
                queue := push st.bag r.epoch (collect r.epoch st.global.queue) }
    events := st.events ++ [Event.tryAdvance, Event.collect, Event.pushBag] }

/-- Any live entry whose examined state word has the low bit set and whose
remaining bits differ from the observed epoch makes the scan stop with outcome
blocked. -/
theorem scanLoop_blocked_of_mem (epoch : Nat) (e : ThreadEntry)
    (h1 : e.state &&& 1 = 1) (h2 : e.state &&& (USIZE - 2) ≠ epoch) :
    ∀ (reg : List ThreadEntry) (cas : List Bool),
      e ∈ (scanLoop epoch reg cas).scannedLive →
      (scanLoop epoch reg cas).outcome = .blocked := by
  intro reg
  induction reg with
  | nil => intro cas he; simp [scanLoop] at he
  | cons c rest ih =>
    intro cas he
    by_cases hc : c.tag = 1
    · match cas with
      | [] => simp [scanLoop, hc] at he
      | true :: cas' =>
        simp only [scanLoop, hc, if_pos, if_true] at he ⊢
        exact ih cas' he
      | false :: cas' => simp [scanLoop, hc] at he
    · by_cases hb : c.state &&& 1 = 1 ∧ c.state &&& (USIZE - 2) ≠ epoch
      · simp [scanLoop, hc, hb]
      · simp only [scanLoop, hc, if_neg, hb, if_false] at he ⊢
        rcases (List.mem_cons).mp he with h | h
        · subst h; exact absurd ⟨h1, h2⟩ hb
        · exact ih cas h

/-- The epoch returned by try_advance is either the observed one or the
observed one plus 2, reduced modulo the word size. -/
theorem try_advance_epoch_cases (epoch : Nat) (reg : List ThreadEntry)
    (cas : List Bool) :
    (try_advance epoch reg cas).epoch = epoch ∨
      (try_advance epoch reg cas).epoch = (epoch + 2) % USIZE := by
  by_cases h : (scanLoop epoch reg cas).outcome = .reachedEnd <;>
    simp [try_advance, h]

/-- Adding 2 and reducing modulo the word size preserves evenness. -/
theorem epoch_add_two_mod_even (epoch : Nat) (h : epoch % 2 = 0) :
    (epoch + 2) % USIZE % 2 = 0 := by
  have hd : (2 : Nat) ∣ USIZE := ⟨2 ^ 63, by norm_num [USIZE]⟩
  rw [Nat.mod_mod_of_dvd _ hd]
  omega

/-- try_advance preserves evenness of the epoch counter. -/
theorem try_advance_epoch_even (epoch : Nat) (reg : List ThreadEntry)
    (cas : List Bool) (h : epoch % 2 = 0) :
    (try_advance epoch reg cas).epoch % 2 = 0 := by
  rcases try_advance_epoch_cases epoch reg cas with h1 | h1 <;> rw [h1]
  · exact h
  · exact epoch_add_two_mod_even epoch h

/-- The defer_free loop preserves evenness of the epoch counter. -/
theorem deferFreeLoop_epoch_even (cap obj : Nat) (cas : List Bool) :
    ∀ (fuel : Nat) (st st' : DeferState),
      deferFreeLoop cap obj cas fuel st = some st' →
      st.global.epoch % 2 = 0 → st'.global.epoch % 2 = 0 := by
  intro fuel
  induction fuel with
  | zero => intro st st' h; simp [deferFreeLoop] at h
  | succ n ih =>
    intro st st' h he
    by_cases hins : (Bag.try_insert cap st.bag Disposer.freeNoDrop obj).1
    · simp only [deferFreeLoop, hins, if_true] at h
      rw [← Option.some_inj.mp h]
      exact he
    · simp only [deferFreeLoop, hins, if_false, Bool.false_eq_true] at h
      exact ih _ _ h (try_advance_epoch_even _ _ _ he)

/-- C1: try_advance only changes the global epoch when the registry scan
completes.  If any live (untagged) entry the scan examined has the low bit of
its state word set and its remaining bits differ from the epoch observed at
the start of the call, the call returns with the global epoch unchanged.  The
epoch changes only when the scan reaches the end of the list, and exactly then
the compare-and-swap moves it from the observed value to that value plus 2. -/
theorem C1_try_advance_no_false_advance (epoch : Nat) (reg : List ThreadEntry)
    (cas : List Bool) :
    ((∃ e ∈ (try_advance epoch reg cas).scannedLive,
        e.state &&& 1 = 1 ∧ e.state &&& (USIZE - 2) ≠ epoch) →
      (try_advance epoch reg cas).epoch = epoch) ∧
    ((try_advance epoch reg cas).epoch ≠ epoch →
      (try_advance epoch reg cas).outcome = .reachedEnd) ∧
    ((try_advance epoch reg cas).outcome = .reachedEnd →
      (try_advance epoch reg cas).epoch = (epoch + 2) % USIZE) := by
  refine ⟨?_, ?_, ?_⟩
  · rintro ⟨e, he, h1, h2⟩
    have hm : e ∈ (scanLoop epoch reg cas).scannedLive := by
      simpa [try_advance] using he
    have hb := scanLoop_blocked_of_mem epoch e h1 h2 reg cas hm
    simp [try_advance, hb]
  · intro hne
    by_contra hout
    have : (try_advance epoch reg cas).epoch = epoch := by
      have : ¬ (scanLoop epoch reg cas).outcome = .reachedEnd := by
        simpa [try_advance] using hout
      simp [try_advance, this]
    exact hne this
  · intro hout
    have : (scanLoop epoch reg cas).outcome = .reachedEnd := by
      simpa [try_advance] using hout
    simp [try_advance, this]

/-- C1 witness: a registry holding one live entry pinned (state word 3, low
bit set) at epoch 2, scanned with observed epoch 0, leaves the epoch at 0. -/
theorem C1_witness : (try_advance 0 [⟨3, 0⟩] []).epoch = 0 :=
  (C1_try_advance_no_false_advance 0 [⟨3, 0⟩] []).1
    ⟨⟨3, 0⟩, by decide, by decide⟩

/-- C5: the global epoch counter is only ever modified by adding 2 with
wraparound modulo the word size, via a compare-and-swap from its observed
value, so an even epoch stays even: try_advance leaves the counter at the
observed value or moves it to that value plus 2 modulo 2 ^ 64, and every
operation of the model that touches the counter (try_advance, pin,
the harness destructor and the defer_free loop) preserves a clear low bit. -/
theorem C5_epoch_steps_of_two (epoch : Nat) (reg : List ThreadEntry)
    (cas : List Bool) (h : epoch % 2 = 0) :
    ((try_advance epoch reg cas).epoch = epoch ∨
      (try_advance epoch reg cas).epoch = (epoch + 2) % USIZE) ∧
    (try_advance epoch reg cas).epoch % 2 = 0 ∧
    (∀ (h0 : Harness) (t : Nat) (fres : FOutcome) (g : Global),
      g.epoch % 2 = 0 → (pin h0 t g cas fres).global.epoch % 2 = 0) ∧
    (∀ (h0 : Harness) (link : Nat × Nat) (g : Global) (sched : List Bool),
      g.epoch % 2 = 0 →
      (harnessDrop h0 link g cas sched).global.epoch % 2 = 0) ∧
    (∀ (cap obj fuel : Nat) (st st' : DeferState),
      deferFreeLoop cap obj cas fuel st = some st' →
      st.global.epoch % 2 = 0 → st'.global.epoch % 2 = 0) := by
  refine ⟨try_advance_epoch_cases epoch reg cas,
    try_advance_epoch_even epoch reg cas h, ?_, ?_, ?_⟩
  · intro h0 t fres g hg
    by_cases hp : h0.isPinned
    · simp [pin, hp, hg]
    · by_cases htrig : h0.pinCount % PINS_BEFORE_COLLECT = 0
      · simpa [pin, hp, htrig] using try_advance_epoch_even g.epoch g.registry cas hg
      · simp [pin, hp, htrig, hg]
  · intro h0 link g sched hg
    simpa [harnessDrop] using try_advance_epoch_even g.epoch g.registry cas hg
  · intro cap obj fuel st st' hsome hst
    exact deferFreeLoop_epoch_even cap obj cas fuel st st' hsome hst

/-- C5 witness: with observed epoch 0 and an empty registry, try_advance moves
the counter to 2, which is even. -/
theorem C5_witness :
    ((try_advance 0 [] []).epoch = 0 ∨ (try_advance 0 [] []).epoch = (0 + 2) % USIZE) ∧
    (try_advance 0 [] []).epoch % 2 = 0 :=
  ⟨(C5_epoch_steps_of_two 0 [] [] rfl).1, (C5_epoch_steps_of_two 0 [] [] rfl).2.1⟩

/-- C6: when the compare-and-swap that unlinks a logically deleted entry
fails, try_advance returns immediately: nothing further is unlinked or
scanned, the registry is left as it stands and the epoch compare-and-swap is
not attempted in that call.  When the unlink succeeds, the unlinked entry is
handed to defer_free and the scan continues on the rest of the list without
changing the predecessor. -/
theorem C6_unlink_race_aborts (epoch : Nat) (c : ThreadEntry)
    (rest : List ThreadEntry) (cas : List Bool) (hc : c.tag = 1) :
    (try_advance epoch (c :: rest) (false :: cas) =
      ⟨epoch, c :: rest, [], [], .raceAbort⟩) ∧
    (try_advance epoch (c :: rest) (true :: cas) =
      ⟨(try_advance epoch rest cas).epoch, (try_advance epoch rest cas).registry,
        c :: (try_advance epoch rest cas).freed,
        (try_advance epoch rest cas).scannedLive,
        (try_advance epoch rest cas).outcome⟩) ∧
    (∀ cas' : List Bool,
      (try_advance epoch (c :: rest) cas').outcome = .raceAbort →
      (try_advance epoch (c :: rest) cas').epoch = epoch) := by
  refine ⟨?_, ?_, ?_⟩
  · simp [try_advance, scanLoop, hc]
  · by_cases hout : (scanLoop epoch rest cas).outcome = .reachedEnd <;>
      simp [try_advance, scanLoop, hc, hout]
  · intro cas' habort
    have : ¬ (scanLoop epoch (c :: rest) cas').outcome = .reachedEnd := by
      intro hend
      rw [show (try_advance epoch (c :: rest) cas').outcome =
            (scanLoop epoch (c :: rest) cas').outcome from rfl, hend] at habort
      exact ScanOutcome.noConfusion habort
    simp [try_advance, this]

/-- C6 witness: a single logically deleted entry whose unlink CAS fails is
left in place, nothing is freed, and the epoch stays at 0. -/
theorem C6_witness :
    try_advance 0 [⟨0, 1⟩] [false] = ⟨0, [⟨0, 1⟩], [], [], .raceAbort⟩ :=
  (C6_unlink_race_aborts 0 ⟨0, 1⟩ [] [] rfl).1

/-- C4: a pin call made by a thread that is not already pinned restores the
unpinned state on every exit path of the closure, including termination by
failure: the entry state word is reset to zero, the harness records the
thread as unpinned, and the closure outcome is propagated. -/
theorem C4_pin_unpins_on_every_exit_path (h : Harness) (tstate : Nat)
    (g : Global) (cas : List Bool) (fres : FOutcome)
    (hp : h.isPinned = false) :
    (pin h tstate g cas fres).tstate = 0 ∧
    (pin h tstate g cas fres).harness.isPinned = false ∧
    (pin h tstate g cas fres).result = fres := by
  simp [pin, hp, Thread.set_unpinned]

/-- C4 witness: a closure that fails still leaves the fresh thread unpinned
with its state word reset to zero. -/
theorem C4_witness :
    (pin freshHarness 5 initialGlobal [] FOutcome.panicked).tstate = 0 ∧
    (pin freshHarness 5 initialGlobal [] FOutcome.panicked).harness.isPinned = false ∧
    (pin freshHarness 5 initialGlobal [] FOutcome.panicked).result = FOutcome.panicked :=
  C4_pin_unpins_on_every_exit_path freshHarness 5 initialGlobal [] FOutcome.panicked rfl

/-- C8: a pin call made while the thread is already pinned is a no-op reusing
the existing pin: the registry state word is not written, the harness (and in
particular the pin counter) is unchanged, no advance-and-collect is triggered,
the global state is untouched, no write event occurs, the thread stays pinned
after the inner scope, and the closure outcome is propagated. -/
theorem C8_reentrant_pin_noop (h : Harness) (tstate : Nat) (g : Global)
    (cas : List Bool) (fres : FOutcome) (hp : h.isPinned = true) :
    (pin h tstate g cas fres).tstate = tstate ∧
    (pin h tstate g cas fres).harness = h ∧
    (pin h tstate g cas fres).harness.isPinned = true ∧
    (pin h tstate g cas fres).triggered = false ∧
    (pin h tstate g cas fres).global = g ∧
    (pin h tstate g cas fres).events = [] ∧
    (pin h tstate g cas fres).result = fres := by
  simp [pin, hp]

/-- C8 witness: an inner pin on an already pinned thread with counter 3
changes nothing and triggers nothing. -/
theorem C8_witness :
    (pin ⟨true, 3, ⟨[]⟩⟩ 7 initialGlobal [] FOutcome.ok).tstate = 7 ∧
    (pin ⟨true, 3, ⟨[]⟩⟩ 7 initialGlobal [] FOutcome.ok).harness = ⟨true, 3, ⟨[]⟩⟩ ∧
    (pin ⟨true, 3, ⟨[]⟩⟩ 7 initialGlobal [] FOutcome.ok).harness.isPinned = true ∧
    (pin ⟨true, 3, ⟨[]⟩⟩ 7 initialGlobal [] FOutcome.ok).triggered = false ∧
    (pin ⟨true, 3, ⟨[]⟩⟩ 7 initialGlobal [] FOutcome.ok).global = initialGlobal ∧
    (pin ⟨true, 3, ⟨[]⟩⟩ 7 initialGlobal [] FOutcome.ok).events = [] ∧
    (pin ⟨true, 3, ⟨[]⟩⟩ 7 initialGlobal [] FOutcome.ok).result = FOutcome.ok :=
  C8_reentrant_pin_noop ⟨true, 3, ⟨[]⟩⟩ 7 initialGlobal [] FOutcome.ok rfl

/-- C10: for a thread that is not already pinned, the advance-and-collect
attempt is triggered exactly when the counter value read before the increment
is a multiple of PINS_BEFORE_COLLECT; in particular the very first pin
(counter 0) always triggers it, and the counter is incremented with
wraparound modulo the word size. -/
theorem C10_first_pin_triggers (h : Harness) (tstate : Nat) (g : Global)
    (cas : List Bool) (fres : FOutcome) (hp : h.isPinned = false) :
    ((pin h tstate g cas fres).triggered = true ↔
      h.pinCount % PINS_BEFORE_COLLECT = 0) ∧
    (h.pinCount = 0 → (pin h tstate g cas fres).triggered = true) ∧
    (pin h tstate g cas fres).harness.pinCount = (h.pinCount + 1) % USIZE := by
  refine ⟨?_, ?_, ?_⟩
  · simp [pin, hp]
  · intro h0
    simp [pin, hp, h0]
  · simp [pin, hp]

/-- C10 witness: the first pin of a fresh thread triggers the opportunistic
advance-and-collect and moves the counter to 1. -/
theorem C10_witness :
    (pin freshHarness 0 initialGlobal [] FOutcome.ok).triggered = true ∧
    (pin freshHarness 0 initialGlobal [] FOutcome.ok).harness.pinCount = (0 + 1) % USIZE :=
  ⟨(C10_first_pin_triggers freshHarness 0 initialGlobal [] FOutcome.ok rfl).2.1 rfl,
    (C10_first_pin_triggers freshHarness 0 initialGlobal [] FOutcome.ok rfl).2.2⟩

/-- C3: the harness destructor performs its steps in exactly this order: mark
the entry pinned, attempt an epoch advance, run a collection pass, push the
local bag onto the global garbage queue, mark the entry unpinned, and mark the
entry as logically deleted; in particular the bag reaches the global queue
strictly before unregistration, and it is present in the final queue stamped
with the epoch current at push time.  The entry state word goes through
pinned (epoch OR 1) and then back to 0. -/
theorem C3_drop_order (h : Harness) (link : Nat × Nat) (g : Global)
    (cas sched : List Bool) :
    (harnessDrop h link g cas sched).events =
      [Event.setPinned, Event.tryAdvance, Event.collect, Event.pushBag,
       Event.setUnpinned, Event.unregister] ∧
    (harnessDrop h link g cas sched).events.indexOf Event.pushBag <
      (harnessDrop h link g cas sched).events.indexOf Event.unregister ∧
    ((harnessDrop h link g cas sched).global.epoch, h.bag) ∈
      (harnessDrop h link g cas sched).global.queue ∧
    (harnessDrop h link g cas sched).tstateTrace =
      [g.epoch ||| 1, 0] ∧
    (harnessDrop h link g cas sched).tstate = 0 := by
  have hev : (harnessDrop h link g cas sched).events =
      [Event.setPinned, Event.tryAdvance, Event.collect, Event.pushBag,
       Event.setUnpinned, Event.unregister] := rfl
  refine ⟨hev, ?_, ?_, rfl, rfl⟩
  · rw [hev]; decide
  · simp [harnessDrop, push]

/-- Helper for C9: the unregister loop either leaves the link unchanged (the
schedule never let a weak CAS succeed) or sets its tag to 1 while keeping the
successor address. -/
theorem unregisterLoop_cases (link : Nat × Nat) :
    ∀ sched : List Bool,
      unregisterLoop link sched = link ∨ unregisterLoop link sched = (link.1, 1) := by
  intro sched
  induction sched with
  | nil => exact Or.inl rfl
  | cons ok rest ih =>
    by_cases h0 : link.2 = 0
    · cases ok
      · simpa [unregisterLoop, h0] using ih
      · simp [unregisterLoop, h0]
    · simp [unregisterLoop, h0]

/-- C9: unregister marks the own entry as logically deleted by driving the tag
of its forward link to 1 through a weak compare-and-swap retry loop: the
successor address stored in the link is never changed, the loop runs only
while the tag is still 0 (a link already tagged is returned untouched), it
terminates with tag 1 as soon as the schedule lets one weak CAS succeed, and
the entry is never physically removed from the registry (the list keeps its
length, the entry keeping its state word). -/
theorem C9_unregister_tags_link (link : Nat × Nat) (sched : List Bool) :
    (unregisterLoop link sched = link ∨ unregisterLoop link sched = (link.1, 1)) ∧
    (unregisterLoop link sched).1 = link.1 ∧
    (link.2 ≠ 0 → unregisterLoop link sched = link) ∧
    (link.2 = 0 → true ∈ sched → unregisterLoop link sched = (link.1, 1)) ∧
    (∀ (reg : List ThreadEntry) (i : Nat),
      (registryUnregister reg i sched).length = reg.length) ∧
    (∀ (reg : List ThreadEntry) (i : Nat) (e : ThreadEntry),
      reg.get? i = some e →
      (registryUnregister reg i sched).get? i =
        some { e with tag := (unregisterLoop (0, e.tag) sched).2 }) := by
  refine ⟨unregisterLoop_cases link sched, ?_, ?_, ?_, ?_, ?_⟩
  · rcases unregisterLoop_cases link sched with h | h <;> rw [h]
  · intro hne
    cases sched with
    | nil => rfl
    | cons ok rest => simp [unregisterLoop, hne]
  · intro h0 hmem
    induction sched with
    | nil => simp at hmem
    | cons ok rest ih =>
      cases ok
      · have : true ∈ rest := by simpa using hmem
        simpa [unregisterLoop, h0] using ih this
      · simp [unregisterLoop, h0]
  · intro reg i
    unfold registryUnregister
    cases hget : reg.get? i with
    | none => rfl
    | some e => simp
  · intro reg i e hget
    unfold registryUnregister
    rw [hget]
    have hi : i < reg.length := by
      by_contra hlt
      rw [List.get?_eq_none.mpr (Nat.le_of_not_lt hlt)] at hget
      exact Option.noConfusion hget
    simp [List.get?_eq_getElem?, List.getElem?_set_self', hi]

/-- C9 witness: a link with successor address 5 and tag 0, under a schedule
whose first weak CAS fails spuriously and whose second succeeds, ends tagged
with its address unchanged. -/
theorem C9_witness : unregisterLoop (5, 0) [false, true] = (5, 1) :=
  (C9_unregister_tags_link (5, 0) [false, true]).2.2.2.1 rfl (by decide)



/-- C7: every object handed to defer_free ends up inserted into some local
bag, paired with the disposer that releases the memory without running a
destructor; when the current bag is at capacity the call replaces it with a
fresh empty bag, runs try_advance and a collection pass, pushes the old full
bag onto the global garbage queue, and retries the insertion, which then
succeeds. -/
theorem C7_defer_free_inserts (cap obj fuel : Nat) (cas : List Bool)
    (st : DeferState) (hcap : 0 < cap) (hfuel : 2 ≤ fuel) :
    ∃ st', deferFreeLoop cap obj cas fuel st = some st' ∧
      (Disposer.freeNoDrop, obj) ∈ st'.bag.items ∧
      (¬ st.bag.items.length < cap →
        st'.bag.items = [(Disposer.freeNoDrop, obj)] ∧
        st'.events = st.events ++
          [Event.tryAdvance, Event.collect, Event.pushBag, Event.insertObj] ∧
        ∃ s, (s, st.bag) ∈ st'.global.queue) := by
  obtain ⟨k, rfl⟩ : ∃ k, fuel = k + 1 + 1 := ⟨fuel - 2, by omega⟩
  by_cases hfull : st.bag.items.length < cap
  · refine ⟨{ st with
                bag := ⟨st.bag.items ++ [(Disposer.freeNoDrop, obj)]⟩,
                events := st.events ++ [Event.insertObj] }, ?_, ?_, ?_⟩
    · simp [deferFreeLoop, Bag.try_insert, hfull]
    · simp
    · intro hcontra; exact absurd hfull hcontra
  · refine ⟨{ deferFlushState cas st with
                bag := ⟨[(Disposer.freeNoDrop, obj)]⟩,
                events := (deferFlushState cas st).events ++ [Event.insertObj] },
      ?_, ?_, ?_⟩
    · simp [deferFreeLoop, Bag.try_insert, hfull, hcap, deferFlushState]
    · simp
    · intro _
      refine ⟨rfl, by simp [deferFlushState], ?_⟩
      exact ⟨(try_advance st.global.epoch st.global.registry cas).epoch,
        by simp [deferFlushState, push]⟩

/-- C7 witness: with capacity 1, a bag already holding one deferred object is
full, so deferring object 9 flushes the old bag to the global queue and
inserts object 9 into a fresh bag. -/
theorem C7_witness :
    ∃ st', deferFreeLoop 1 9 [] 2
        (⟨⟨[(Disposer.freeNoDrop, 7)]⟩, ⟨0, [], []⟩, []⟩ : DeferState) = some st' ∧
      (Disposer.freeNoDrop, 9) ∈ st'.bag.items ∧
      (¬ (⟨⟨[(Disposer.freeNoDrop, 7)]⟩, ⟨0, [], []⟩, []⟩ : DeferState).bag.items.length < 1 →
        st'.bag.items = [(Disposer.freeNoDrop, 9)] ∧
        st'.events = (⟨⟨[(Disposer.freeNoDrop, 7)]⟩, ⟨0, [], []⟩, []⟩ : DeferState).events ++
          [Event.tryAdvance, Event.collect, Event.pushBag, Event.insertObj] ∧
        ∃ s, (s, (⟨⟨[(Disposer.freeNoDrop, 7)]⟩, ⟨0, [], []⟩, []⟩ : DeferState).bag) ∈
          st'.global.queue) :=
  C7_defer_free_inserts 1 9 2 [] ⟨⟨[(Disposer.freeNoDrop, 7)]⟩, ⟨0, [], []⟩, []⟩
    (by decide) (by decide)

/-- C2 counterexample: the cadence check reads the pin counter before the
increment, so a fresh thread pinning 129 times in a row with no other threads
present does not see exactly one opportunistic advance-and-collect attempt
triggered by the 129th pin: the trigger pattern of the 129 pins is not
128 silent pins followed by one trigger. -/
theorem C2_counterexample :
    ¬ (simTriggers 129 = List.replicate 128 false ++ [true]) := by decide

/-- C2 amended: an opportunistic advance-and-collect attempt happens every
128th pin counting from the very first pin (the counter is read before the
increment, and 0 mod 128 equals 0): a single thread that pins 129 times in a
row with no other threads present triggers exactly two opportunistic
advance-and-collect attempts, one by the 1st pin and one by the 129th pin. -/
theorem C2_amended_cadence :
    simTriggers 129 = true :: (List.replicate 127 false ++ [true]) := by decide
